import Mathlib

/-!
# A verification development of GASpy's document codec and defaults

Shallow embedding of `gaspy/mongo.py` (the structure ↔ Mongo-document codec)
and the relevant parts of `gaspy/defaults.py` (the adsorbate catalog and the
adsorption parameter builder).

Conventions of the embedding:
* floating-point numbers are modelled by exact rationals (`ℚ`);
* 3-vectors are triples `ℚ × ℚ × ℚ`, a cell is a triple of row vectors;
* Python code that can raise is modelled with `Except`;
* `os.getenv('USER')` and `datetime.datetime.utcnow()` are modelled as explicit
  parameters: the user identity and a clock stream `Nat → Int` whose successive
  values are the successive readings of the UTC clock (the source calls
  `utcnow()` once per timestamp field, in order);
* behaviour of external collaborators (ase constraints / calculators, spglib)
  that the repository only calls is modelled from the spec where noted.
-/

deriving instance DecidableEq for Except

namespace GASpy

/-- A 3-vector of rationals, modelling a numpy float 3-vector. -/
abbrev Vec3 : Type := ℚ × ℚ × ℚ

/-- A 3×3 cell matrix given by its three row (lattice) vectors. -/
abbrev Cell : Type := Vec3 × Vec3 × Vec3

def vadd (a b : Vec3) : Vec3 := (a.1 + b.1, a.2.1 + b.2.1, a.2.2 + b.2.2)

def vsub (a b : Vec3) : Vec3 := (a.1 - b.1, a.2.1 - b.2.1, a.2.2 - b.2.2)

def vsmul (k : ℚ) (a : Vec3) : Vec3 := (k * a.1, k * a.2.1, k * a.2.2)

def dot3 (a b : Vec3) : ℚ := a.1 * b.1 + a.2.1 * b.2.1 + a.2.2 * b.2.2

def cross3 (a b : Vec3) : Vec3 :=
  (a.2.1 * b.2.2 - a.2.2 * b.2.1,
   a.2.2 * b.1 - a.1 * b.2.2,
   a.1 * b.2.1 - a.2.1 * b.1)

/-- Determinant of a cell (`np.linalg.det` of the matrix whose rows are the
three lattice vectors). -/
def detCell (c : Cell) : ℚ := dot3 c.1 (cross3 c.2.1 c.2.2)

/-- One atom of an `ase.Atoms` object: the mutable per-atom data the encoder
reads (`atom.symbol`, `atom.position`, `atom.tag`, `atom.charge`,
`atom.momentum`, `atom.magmom`).  The `index` of an atom is its position in
the owning list and is therefore not stored here. -/
structure AtomR where
  symbol : String
  position : Vec3
  tag : Int
  charge : ℚ
  momentum : Vec3
  magmom : ℚ
deriving DecidableEq, Repr, Inhabited

/-- The ase constraint variants that appear in this repository: `FixAtoms`
(fixed atoms, by index) and `Hookean` (a pairwise spring between two atoms
with threshold length `rt` and spring constant `k`). -/
inductive AseConstraint where
  | fixAtoms (indices : List Nat)
  | hookean (a1 a2 : Nat) (rt k : ℚ)
deriving DecidableEq, Repr

/-- An attached ase calculator, as the encoder observes it: its `todict`
settings (`none` models a calculator whose `todict` raises `AttributeError`),
optional k-points, identity strings, and the cached results. -/
structure Calculator where
  settingsDict : Option (List (String × String))
  kpts : Option (List Int)
  moduleName : String
  className : String
  energy : Option ℚ
  forces : Option (List Vec3)
  stress : Option (List ℚ)
  magmoms : Option (List ℚ)
deriving DecidableEq, Repr, Inhabited

/-- An `ase.Atoms` object: ordered atoms, cell, periodic-boundary flags,
info mapping, constraints, and an optional attached calculator. -/
structure AtomsObj where
  atomList : List AtomR
  cell : Cell
  pbc : Bool × Bool × Bool
  info : List (String × String)
  constraints : List AseConstraint
  calculator : Option Calculator
deriving DecidableEq, Repr, Inhabited

/-- The positions array of an `ase.Atoms` object. -/
def AtomsObj.positions (s : AtomsObj) : List Vec3 := s.atomList.map AtomR.position

/-- `name in calculator.results` for one property name. -/
def Calculator.hasCachedResult (c : Calculator) (propertyName : String) : Bool :=
  if propertyName = "energy" then c.energy.isSome
  else if propertyName = "forces" then c.forces.isSome
  else if propertyName = "stress" then c.stress.isSome
  else if propertyName = "magmoms" then c.magmoms.isSome
  else false

/-- `calculator.calculation_required(atoms, properties)`: true when some
requested property has no cached value (the attached calculator is taken to
belong to this very atoms object, so no `check_state` change is possible). -/
def calculation_required (c : Calculator) (properties : List String) : Bool :=
  properties.any (fun p => ! c.hasCachedResult p)

/-- `atoms.get_magnetic_moments()`: per-atom computed magnetic moments from the
attached calculator; `none` models the `RuntimeError` raised when no
calculator is attached or the calculator has no magnetic moments. -/
def get_magnetic_moments (s : AtomsObj) : Option (List ℚ) :=
  match s.calculator with
  | none => none
  | some c => c.magmoms

/-- Modelled from the spec: the force adjustment of the external constraint
collaborators, folded over the raw forces by `atoms.get_forces()`.
`FixAtoms` zeroes the forces of the affected atoms.  The pairwise spring
(`Hookean`) adds a restoring force along the bond once it is stretched past
the threshold; the external library's magnitude involves the Euclidean norm
(irrational), modelled here by a rational surrogate increasing in the squared
stretch — no claim depends on the spring's numeric profile. -/
def adjust_forces (positions : List Vec3) (c : AseConstraint) (forces : List Vec3) :
    List Vec3 :=
  match c with
  | .fixAtoms indices => indices.foldl (fun fs i => fs.set i (0, 0, 0)) forces
  | .hookean a1 a2 rt k =>
    let p1 := positions.getD a1 (0, 0, 0)
    let p2 := positions.getD a2 (0, 0, 0)
    let displace := vsub p2 p1
    let dd := dot3 displace displace
    if rt * rt < dd then
      let springForce := vsmul (k * (dd - rt * rt)) displace
      let forces1 := forces.set a1 (vadd (forces.getD a1 (0, 0, 0)) springForce)
      forces1.set a2 (vsub (forces1.getD a2 (0, 0, 0)) springForce)
    else forces

/-- The forces after every constraint's `adjust_forces` has been applied, in
constraint order (`atoms.get_forces()` with the default
`apply_constraint=True`). -/
def constrainedForces (constraints : List AseConstraint) (positions : List Vec3)
    (forces : List Vec3) : List Vec3 :=
  constraints.foldl (fun fs c => adjust_forces positions c fs) forces

/-- `atoms.get_forces(apply_constraint=...)`: the calculator's cached forces,
with the constraint adjustments applied only when requested; `none` when no
forces are cached. -/
def get_forces (s : AtomsObj) (c : Calculator) (apply_constraint : Bool) :
    Option (List Vec3) :=
  match c.forces with
  | none => none
  | some rawForces =>
    some (if apply_constraint
          then constrainedForces s.constraints s.positions rawForces
          else rawForces)

/-- Modelled from the spec: the external constraint collaborators' potential
energy adjustment (`adjust_potential_energy`); a pairwise spring contributes a
stretch penalty, fixed atoms contribute nothing.  As with `adjust_forces`, a
rational surrogate replaces the external library's norm-based formula. -/
def adjust_potential_energy (positions : List Vec3) : AseConstraint → ℚ
  | .fixAtoms _ => 0
  | .hookean a1 a2 rt k =>
    let p1 := positions.getD a1 (0, 0, 0)
    let p2 := positions.getD a2 (0, 0, 0)
    let dd := dot3 (vsub p2 p1) (vsub p2 p1)
    if rt * rt < dd then k / 2 * (dd - rt * rt) else 0

/-- `atoms.get_potential_energy(apply_constraint=...)`: the calculator's cached
energy, with constraint energy adjustments added only when requested. -/
def get_potential_energy (s : AtomsObj) (c : Calculator) (apply_constraint : Bool) :
    Option ℚ :=
  match c.energy with
  | none => none
  | some e =>
    some (if apply_constraint
          then e + (s.constraints.map (adjust_potential_energy s.positions)).sum
          else e)

/-- One entry of the document's `atoms.atoms` list (one encoded atom). -/
structure AtomEntry where
  symbol : String
  position : Vec3
  tag : Int
  index : Nat
  charge : ℚ
  momentum : Vec3
  magmom : ℚ
deriving DecidableEq, Repr, Inhabited

/-- A serialized constraint, `constraint.todict()`: a tagged dictionary.  The
`otherDict` variant stands for any dictionary whose `name` tag is not one of
the kinds the constraint factory knows. -/
inductive ConstraintDict where
  | fixAtomsDict (indices : List Nat)
  | hookeanDict (a1 a2 : Nat) (rt k : ℚ)
  | otherDict (kindName : String)
deriving DecidableEq, Repr

/-- `constraint.todict()` for the known constraint variants. -/
def AseConstraint.todict : AseConstraint → ConstraintDict
  | .fixAtoms indices => .fixAtomsDict indices
  | .hookean a1 a2 rt k => .hookeanDict a1 a2 rt k

/-- Whether a serialized constraint's kind tag is unknown to the factory. -/
def ConstraintDict.isUnknownKind : ConstraintDict → Bool
  | .otherDict _ => true
  | _ => false

/-- Errors the decoder can raise. -/
inductive MongoDecodeError where
  | unsupportedConstraintKind (kindName : String)
deriving DecidableEq, Repr

/-- `ase.constraints.dict2constraint`: the constraint factory; an unrecognized
kind tag raises (an unsupported-constraint-kind error propagated to the
caller). -/
def dict2constraint : ConstraintDict → Except MongoDecodeError AseConstraint
  | .fixAtomsDict indices => .ok (.fixAtoms indices)
  | .hookeanDict a1 a2 rt k => .ok (.hookean a1 a2 rt k)
  | .otherDict kindName => .error (.unsupportedConstraintKind kindName)

/-- Errors the encoder can raise. -/
inductive EncError where
  | magmomIndexError
  | maxOfEmptySequence
deriving DecidableEq, Repr

/-- A Python list comprehension over a fallible function: elements are
processed in order and the first raised error propagates. -/
def mapExcept (f : α → Except ε β) : List α → Except ε (List β)
  | [] => .ok []
  | x :: xs =>
    match f x with
    | .error e => .error e
    | .ok y =>
      match mapExcept f xs with
      | .error e => .error e
      | .ok ys => .ok (y :: ys)

/-- Python's builtin `max` over an iterable: fails on an empty sequence. -/
def maxList : List ℚ → Option ℚ
  | [] => none
  | x :: xs => some (xs.foldl max x)

/-- `forces.flatten()` for a list of 3-vectors. -/
def flattenForces (forces : List Vec3) : List ℚ :=
  forces.foldr (fun v acc => v.1 :: v.2.1 :: v.2.2 :: acc) []

/-- The encoded atom entries of the relaxed branch of `_make_atoms_dict`
(`for i, atom in enumerate(atoms)` with `magmom=magmoms[i]`): the explicit
counter `i` threads the enumeration index, and an out-of-range access into the
computed magnetic moments raises. -/
def mkEntriesComputed (magmoms : List ℚ) : Nat → List AtomR →
    Except EncError (List AtomEntry)
  | _, [] => .ok []
  | i, a :: rest =>
    match magmoms[i]? with
    | none => .error .magmomIndexError
    | some m =>
      match mkEntriesComputed magmoms (i + 1) rest with
      | .error e => .error e
      | .ok entries =>
        .ok ({ symbol := a.symbol, position := a.position, tag := a.tag, index := i,
               charge := a.charge, momentum := a.momentum, magmom := m } :: entries)

/-- The encoded atom entries of the unrelaxed branch of `_make_atoms_dict`
(`for atom in atoms` with `magmom=atom.magmom`). -/
def mkEntriesStatic : Nat → List AtomR → List AtomEntry
  | _, [] => []
  | i, a :: rest =>
    { symbol := a.symbol, position := a.position, tag := a.tag, index := i,
      charge := a.charge, momentum := a.momentum, magmom := a.magmom }
      :: mkEntriesStatic (i + 1) rest

/-- The try/except of `_make_atoms_dict`: attempt the computed magnetic-moment
path first; on `RuntimeError` (no attached computed moments) fall back to the
static per-atom values. -/
def mkAtomEntries (s : AtomsObj) : Except EncError (List AtomEntry) :=
  match get_magnetic_moments s with
  | some magmoms => mkEntriesComputed magmoms 0 s.atomList
  | none => .ok (mkEntriesStatic 0 s.atomList)

/-- The document's `atoms` sub-document. -/
structure AtomsDict where
  atoms : List AtomEntry
  cell : Cell
  pbc : Bool × Bool × Bool
  info : List (String × String)
  constraints : List ConstraintDict
  natoms : Nat
  mass : ℚ
  spacegroup : String
  chemical_symbols : List String
  symbol_counts : List (String × Nat)
  volume : Option ℚ
deriving DecidableEq, Repr, Inhabited

/-- A fragment of the external per-element atomic mass table that
`atoms.get_masses()` consults (exact rationals for the tabulated values). -/
def atomicMass (symbol : String) : ℚ :=
  if symbol = "H" then 126 / 125
  else if symbol = "C" then 12011 / 1000
  else if symbol = "O" then 15999 / 1000
  else if symbol = "U" then 238029 / 1000
  else 0

/-- A fragment of the external element → atomic number table. -/
def atomic_number (symbol : String) : Int :=
  if symbol = "H" then 1
  else if symbol = "C" then 6
  else if symbol = "O" then 8
  else if symbol = "U" then 92
  else 0

/-- The `spglib` cell tuple: (lattice = transposed cell, scaled positions,
atomic numbers). -/
abbrev SpglibCell : Type := Cell × List Vec3 × List Int

/-- Transpose of a cell matrix. -/
def transposeCell (c : Cell) : Cell :=
  let r1 := c.1
  let r2 := c.2.1
  let r3 := c.2.2
  ((r1.1, r2.1, r3.1), (r1.2.1, r2.2.1, r3.2.1), (r1.2.2, r2.2.2, r3.2.2))

/-- Cramer solution of `f₁·r₁ + f₂·r₂ + f₃·r₃ = p` for a nonsingular cell with
rows `r₁ r₂ r₃` and determinant `d`. -/
def solveScaled (c : Cell) (d : ℚ) (p : Vec3) : Vec3 :=
  (detCell (p, c.2.1, c.2.2) / d,
   detCell (c.1, p, c.2.2) / d,
   detCell (c.1, c.2.1, p) / d)

/-- Modelled from the spec: `atoms.get_scaled_positions()`, an external
collaborator producing the fractional coordinates fed (only) to the opaque
symmetry detector.  For a nonsingular cell these are the exact fractional
coordinates; for a singular cell the external behaviour is version-dependent
and is modelled as returning the cartesian positions unchanged. -/
def get_scaled_positions (c : Cell) (positions : List Vec3) : List Vec3 :=
  let d := detCell c
  if d = 0 then positions else positions.map (solveScaled c d)

/-- `make_spglib_cell_from_atoms`: the 3-tuple `spglib` consumes —
`(atoms.get_cell().T, atoms.get_scaled_positions(), atoms.get_atomic_numbers())`. -/
def make_spglib_cell_from_atoms (atoms : AtomsObj) : SpglibCell :=
  (transposeCell atoms.cell,
   get_scaled_positions atoms.cell atoms.positions,
   atoms.atomList.map (fun a => atomic_number a.symbol))

/-- Modelled from the spec: the external symmetry collaborator
`spglib.get_spacegroup(cell) -> label`, an opaque deterministic label; no
claim inspects the label's value. -/
def get_spacegroup (cell : SpglibCell) : String :=
  "spacegroup-of-" ++ toString cell.2.2.length ++ "-atoms"

/-- The body of `_make_atoms_dict` after the atom entries are built: cell,
pbc, info, serialized constraints, and the derived search fields in source
order (`natoms`, `mass`, `spacegroup`, `chemical_symbols`, `symbol_counts`,
and `volume` guarded by a strictly positive cell determinant). -/
def atomsDictWithEntries (s : AtomsObj) (entries : List AtomEntry) : AtomsDict :=
  let syms := s.atomList.map AtomR.symbol
  { atoms := entries,
    cell := s.cell,
    pbc := s.pbc,
    info := s.info,
    constraints := s.constraints.map AseConstraint.todict,
    natoms := s.atomList.length,
    mass := (s.atomList.map (fun a => atomicMass a.symbol)).sum,
    spacegroup := get_spacegroup (make_spglib_cell_from_atoms s),
    chemical_symbols := syms.dedup,
    symbol_counts := syms.dedup.map (fun sym => (sym, syms.count sym)),
    volume := if 0 < detCell s.cell then some |detCell s.cell| else none }

/-- `_make_atoms_dict`: encode the atoms, then attach the derived fields. -/
def _make_atoms_dict (s : AtomsObj) : Except EncError AtomsDict :=
  match mkAtomEntries s with
  | .error e => .error e
  | .ok entries => .ok (atomsDictWithEntries s entries)

/-- The inner `calc_dict['calculator']` value: the calculator's settings (an
empty mapping when `todict` raises `AttributeError`), the sanitized k-points
(omitted when absent), and the identity fields appended last. -/
structure CalcInner where
  settings : List (String × String)
  kpts : Option (List Int)
  moduleName : String
  className : String
deriving DecidableEq, Repr, Inhabited

/-- The document's `calc` sub-document; empty when no calculator is attached. -/
structure CalcDict where
  calculator : Option CalcInner := none
deriving DecidableEq, Repr, Inhabited

/-- `_make_calculator_dict`. -/
def _make_calculator_dict (s : AtomsObj) : CalcDict :=
  match s.calculator with
  | none => {}
  | some c =>
    { calculator := some { settings := c.settingsDict.getD [],
                           kpts := c.kpts,
                           moduleName := c.moduleName,
                           className := c.className } }

/-- The document's `results` sub-document; every field starts absent. -/
structure ResultsDict where
  energy : Option ℚ := none
  forces : Option (List Vec3) := none
  fmax : Option ℚ := none
  stress : Option (List ℚ) := none
deriving DecidableEq, Repr, Inhabited

/-- The `results['energy']` field: populated only when the calculator reports
no pending calculation for energy, and then read from the cache WITHOUT
constraint projection (`atoms.get_potential_energy(apply_constraint=False)`). -/
def energyField (s : AtomsObj) (calculator : Calculator) : Option ℚ :=
  if calculation_required calculator ["energy"] = false
  then get_potential_energy s calculator false
  else none

/-- `_make_results_dict`: empty without a calculator; otherwise `energy` is
read from the cache (without constraint projection) only when no calculation
is pending for it, and when no calculation is pending for forces — i.e.
exactly when a cached forces value exists, which the match below tests — the
raw cached forces are stored together with `fmax`, the maximum absolute
component of the forces WITH constraints applied (Python's `max` raises on an
empty sequence). -/
def _make_results_dict (s : AtomsObj) : Except EncError ResultsDict :=
  match s.calculator with
  | none => .ok {}
  | some calculator =>
    match calculator.forces with
    | none => .ok { energy := energyField s calculator }
    | some rawForces =>
      match maxList ((flattenForces
          (constrainedForces s.constraints s.positions rawForces)).map (fun q => |q|)) with
      | none => .error .maxOfEmptySequence
      | some m =>
        .ok { energy := energyField s calculator, forces := some rawForces, fmax := some m }

/-- A full Mongo document as produced by `make_doc_from_atoms` (without
caller-supplied extra key-value pairs). -/
structure Doc where
  atoms : AtomsDict
  calcDict : CalcDict
  results : ResultsDict
  user : Option String
  ctime : Int
  mtime : Int
deriving DecidableEq, Repr, Inhabited

/-- `make_doc_from_atoms`: build the three sub-documents, then set `user` from
the environment and `ctime`/`mtime` from two successive readings of the UTC
clock (the source calls `datetime.datetime.utcnow()` once for each). -/
def make_doc_from_atoms (user : Option String) (clock : Nat → Int) (atoms : AtomsObj) :
    Except EncError Doc :=
  match _make_atoms_dict atoms with
  | .error e => .error e
  | .ok atoms_dict =>
    match _make_results_dict atoms with
    | .error e => .error e
    | .ok results_dict =>
      .ok { atoms := atoms_dict,
            calcDict := _make_calculator_dict atoms,
            results := results_dict,
            user := user,
            ctime := clock 0,
            mtime := clock 1 }

/-- Rebuild one atom from its document entry
(`Atom(symbol, position, tag=…, momentum=…, magmom=…, charge=…)`). -/
def entryToAtom (e : AtomEntry) : AtomR :=
  { symbol := e.symbol, position := e.position, tag := e.tag,
    charge := e.charge, momentum := e.momentum, magmom := e.magmom }

/-- `make_atoms_from_doc`: rebuild the atoms (constraints are decoded through
the factory before any structure is returned, so a bad constraint yields an
error and no structure), then unconditionally attach a
`SinglePointCalculator` holding whatever `energy`/`forces`/`stress` the
document's `results` carry (absent fields stay absent — never fabricated). -/
def make_atoms_from_doc (doc : Doc) : Except MongoDecodeError AtomsObj :=
  match mapExcept dict2constraint doc.atoms.constraints with
  | .error e => .error e
  | .ok constraints =>
    .ok { atomList := doc.atoms.atoms.map entryToAtom,
          cell := doc.atoms.cell,
          pbc := doc.atoms.pbc,
          info := doc.atoms.info,
          constraints := constraints,
          calculator := some { settingsDict := some [],
                               kpts := none,
                               moduleName := "ase.calculators.singlepoint",
                               className := "SinglePointCalculator",
                               energy := doc.results.energy,
                               forces := doc.results.forces,
                               stress := doc.results.stress,
                               magmoms := none } }

/-- Whether an `Except` computation succeeded. -/
def isOkE : Except ε α → Bool
  | .ok _ => true
  | .error _ => false

/-- The success value of an `Except` computation, if any. -/
def okValue : Except ε α → Option α
  | .ok a => some a
  | .error _ => none

/-! ## `gaspy/defaults.py`: the adsorbate catalog and adsorption parameters -/

/-- `ase.Atoms(symbols, positions=…)` as `defaults.py` builds adsorbates: no
tags, charges, momenta, magnetic moments, constraints or calculator; the
default (zero) cell and no periodic boundaries. -/
def mkAtomsFromSymbols (symbols : List String) (positions : List Vec3) : AtomsObj :=
  { atomList := List.zipWith
      (fun sym pos => { symbol := sym, position := pos, tag := 0, charge := 0,
                        momentum := (0, 0, 0), magmom := 0 })
      symbols positions,
    cell := ((0, 0, 0), (0, 0, 0), (0, 0, 0)),
    pbc := (false, false, false),
    info := [],
    constraints := [],
    calculator := none }

/-- `atoms.set_constraint(c)`: REPLACES the constraint list with `[c]` (it
does not append). -/
def set_constraint (s : AtomsObj) (c : AseConstraint) : AtomsObj :=
  { s with constraints := [c] }

/-- The local `ooh` object of `_adsorbates`: built with two `set_constraint`
calls — the second replaces the first, so only the O–H spring survives — and
then never stored in the returned dictionary (the `'OOH'` entry below is a
fresh unconstrained `Atoms`). -/
def ooh_constrained : AtomsObj :=
  let ooh := mkAtomsFromSymbols ["O", "O", "H"]
    [(0, 0, 0), (0, 0, 31 / 20), (0, 47 / 50, 9 / 5)]
  let ooh1 := set_constraint ooh (.hookean 0 1 (39 / 20) 10)
  set_constraint ooh1 (.hookean 1 2 (137 / 100) 5)

/-- `_adsorbates()`: the fixed adsorbate catalog keyed by formula string, in
insertion order.  Note the `'OOH'` entry: the source assigns a fresh
`Atoms('OOH', positions=…)` — not the constrained `ooh` local — so the stored
entry carries no constraints. -/
def _adsorbates : List (String × AtomsObj) :=
  [("", mkAtomsFromSymbols [] []),
   ("U", mkAtomsFromSymbols ["U"] [(0, 0, 0)]),
   ("H", mkAtomsFromSymbols ["H"] [(0, 0, -1 / 2)]),
   ("O", mkAtomsFromSymbols ["O"] [(0, 0, 0)]),
   ("C", mkAtomsFromSymbols ["C"] [(0, 0, 0)]),
   ("CO", mkAtomsFromSymbols ["C", "O"] [(0, 0, 0), (0, 0, 6 / 5)]),
   ("OH", mkAtomsFromSymbols ["O", "H"] [(0, 0, 0), (0, 0, 24 / 25)]),
   ("OOH", mkAtomsFromSymbols ["O", "O", "H"]
      [(0, 0, 0), (0, 0, 31 / 20), (0, 47 / 50, 9 / 5)])]

/-- The fields of the `adsorption_parameters` return value that do not come
from the vasp settings merge, plus the `nsw` ionic-step setting the
constrained-adsorbate branch controls. -/
structure AdsorptionParams where
  numtosubmit : Nat
  min_xy : ℚ
  relaxed : Bool
  num_slab_atoms : Nat
  slabrepeat : String
  adsorbate_name : String
  nsw : Nat
deriving DecidableEq, Repr, Inhabited

/-- `adsorption_parameters(adsorbate)` for a catalog formula string (defaults
for the remaining arguments): looks the adsorbate up in `_adsorbates`; if it
has any constraints the ionic-step count `nsw` is 0 (ASE relaxes, since vasp
cannot handle constraints), otherwise 200. -/
def adsorption_parameters (adsorbate : String) : Option AdsorptionParams :=
  match _adsorbates.lookup adsorbate with
  | none => none
  | some ads =>
    let nsw : Nat := if ads.constraints ≠ [] then 0 else 200
    some { numtosubmit := 1, min_xy := 9 / 2, relaxed := true, num_slab_atoms := 0,
           slabrepeat := "(1, 1)", adsorbate_name := adsorbate, nsw := nsw }

/-! ## Characterisations of decoded structures -/

/-- The `SinglePointCalculator` the decoder attaches for a given `results`
sub-document. -/
def spcOf (rd : ResultsDict) : Calculator :=
  { settingsDict := some [], kpts := none,
    moduleName := "ase.calculators.singlepoint",
    className := "SinglePointCalculator",
    energy := rd.energy, forces := rd.forces, stress := rd.stress, magmoms := none }

/-- The structure the decoder returns when the document's atom data is `S`'s. -/
def decodedOf (S : AtomsObj) (rd : ResultsDict) : AtomsObj :=
  { atomList := S.atomList, cell := S.cell, pbc := S.pbc, info := S.info,
    constraints := S.constraints, calculator := some (spcOf rd) }

/-! ## Concrete instances used as witnesses and counterexamples -/

/-- A concrete one-atom structure with constraints and no calculator. -/
def witnessAtomsC1 : AtomsObj :=
  { atomList := [{ symbol := "H", position := (0, 0, -1 / 2), tag := 1, charge := 1 / 4,
                   momentum := (1, 0, 0), magmom := 2 }],
    cell := ((1, 0, 0), (0, 1, 0), (0, 0, 1)),
    pbc := (true, true, false),
    info := [("adsorbate", "H")],
    constraints := [.fixAtoms [0], .hookean 0 1 (39 / 20) 10],
    calculator := none }

/-- The document encoded from `witnessAtomsC1`. -/
def witnessDocC1 : Doc :=
  match make_doc_from_atoms (some "ktran") (fun _ => 42) witnessAtomsC1 with
  | .ok d => d
  | .error _ => default

/-- The structure decoded back from `witnessDocC1`. -/
def decodedC1 : AtomsObj :=
  match make_atoms_from_doc witnessDocC1 with
  | .ok s => s
  | .error _ => default

/-- A concrete document whose `results` sub-document is empty. -/
def emptyResultsDoc : Doc :=
  { atoms := { atoms := [], cell := ((1, 0, 0), (0, 1, 0), (0, 0, 1)),
               pbc := (false, false, false), info := [], constraints := [],
               natoms := 0, mass := 0, spacegroup := "P1",
               chemical_symbols := [], symbol_counts := [], volume := some 1 },
    calcDict := {}, results := {}, user := none, ctime := 0, mtime := 0 }

/-- The structure decoded from `emptyResultsDoc`. -/
def decodedEmpty : AtomsObj :=
  match make_atoms_from_doc emptyResultsDoc with
  | .ok s => s
  | .error _ => default

/-- A concrete calculator with a cached energy of −14.2 and cached forces for
a two-atom carbon monoxide, nothing pending. -/
def calcCO : Calculator :=
  { settingsDict := some [("xc", "beef-vdw")], kpts := some [1, 1, 1],
    moduleName := "vasp", className := "Vasp",
    energy := some (-71 / 5), forces := some [(0, 0, 1), (0, 0, -1)],
    stress := none, magmoms := none }

/-- A two-atom carbon monoxide structure carrying `calcCO`. -/
def sCO : AtomsObj :=
  { atomList := [{ symbol := "C", position := (0, 0, 0), tag := 0, charge := 0,
                   momentum := (0, 0, 0), magmom := 0 },
                 { symbol := "O", position := (0, 0, 6 / 5), tag := 0, charge := 0,
                   momentum := (0, 0, 0), magmom := 0 }],
    cell := ((10, 0, 0), (0, 10, 0), (0, 0, 10)),
    pbc := (true, true, true), info := [], constraints := [],
    calculator := some calcCO }

/-- The `results` sub-document encoded from `sCO`. -/
def rdCO : ResultsDict :=
  match _make_results_dict sCO with
  | .ok rd => rd
  | .error _ => default

/-- The document encoded from `sCO`. -/
def docCO : Doc :=
  match make_doc_from_atoms none (fun _ => 0) sCO with
  | .ok d => d
  | .error _ => default

/-- A zero-atom structure (the empty adsorbate placeholder). -/
def emptyAtoms : AtomsObj := mkAtomsFromSymbols [] []

/-- The document encoded from the empty adsorbate placeholder. -/
def docEmpty : Doc :=
  match make_doc_from_atoms none (fun _ => 0) emptyAtoms with
  | .ok d => d
  | .error _ => default

/-- A zero-atom structure carrying a calculator with a cached — necessarily
empty — forces array. -/
def emptyAtomsWithForces : AtomsObj :=
  { atomList := [], cell := ((1, 0, 0), (0, 1, 0), (0, 0, 1)),
    pbc := (false, false, false), info := [], constraints := [],
    calculator := some { settingsDict := some [], kpts := none,
                         moduleName := "vasp", className := "Vasp",
                         energy := some (-1), forces := some [],
                         stress := none, magmoms := none } }

/-- A one-atom structure with only a static magnetic-moment label. -/
def s6static : AtomsObj :=
  { atomList := [{ symbol := "H", position := (0, 0, 0), tag := 0, charge := 0,
                   momentum := (0, 0, 0), magmom := 3 }],
    cell := ((1, 0, 0), (0, 1, 0), (0, 0, 1)),
    pbc := (false, false, false), info := [], constraints := [],
    calculator := none }

/-- The same atom, but with an attached computed magnetic moment (5) that
differs from the static label (3). -/
def s6computed : AtomsObj :=
  { s6static with
      calculator := some { settingsDict := some [], kpts := none,
                           moduleName := "vasp", className := "Vasp",
                           energy := some 0, forces := none,
                           stress := none, magmoms := some [5] } }

/-- The `atoms` sub-document encoded from `s6computed`. -/
def ad6 : AtomsDict :=
  match _make_atoms_dict s6computed with
  | .ok ad => ad
  | .error _ => default

/-- A document containing a constraint entry of unrecognized kind. -/
def badConstraintDoc : Doc :=
  { emptyResultsDoc with
      atoms := { emptyResultsDoc.atoms with
                   constraints := [.otherDict "FixBondLengths"] } }

/-- The document produced for the empty structure under a clock that ticks
between the two `utcnow()` readings. -/
def tickingDoc : Doc :=
  match make_doc_from_atoms none (fun n => (n : Int)) emptyAtoms with
  | .ok d => d
  | .error _ => default

/-- The document produced for the empty structure under a clock that does not
tick between the two readings. -/
def steadyDoc : Doc :=
  match make_doc_from_atoms none (fun _ => (7 : Int)) emptyAtoms with
  | .ok d => d
  | .error _ => default

/-! ## Helper lemmas -/

/-- The constraint factory inverts serialization on the known variants. -/
theorem dict2constraint_todict (c : AseConstraint) :
    dict2constraint c.todict = .ok c := by
  cases c <;> rfl

/-- Decoding a list of serialized known constraints recovers the list. -/
theorem mapExcept_todict (l : List AseConstraint) :
    mapExcept dict2constraint (l.map AseConstraint.todict) = .ok l := by
  induction l with
  | nil => rfl
  | cons c rest ih =>
    simp only [List.map_cons, mapExcept, dict2constraint_todict, ih]

/-- If a fallible comprehension succeeds, every element was processed
successfully. -/
theorem mapExcept_ok_mem {f : α → Except ε β} {l : List α} {r : List β}
    (h : mapExcept f l = .ok r) : ∀ x ∈ l, ∃ y, f x = .ok y := by
  induction l generalizing r with
  | nil => intro x hx; cases hx
  | cons a as ih =>
    intro x hx
    unfold mapExcept at h
    cases hfa : f a with
    | error e => rw [hfa] at h; cases h
    | ok y =>
      rw [hfa] at h
      cases hrest : mapExcept f as with
      | error e => rw [hrest] at h; cases h
      | ok ys =>
        rw [hrest] at h
        cases hx with
        | head => exact ⟨y, hfa⟩
        | tail _ hmem => exact ih hrest x hmem

/-- Decoding the entries of the static branch recovers the original atoms. -/
theorem mkEntriesStatic_map_entryToAtom (l : List AtomR) (i : Nat) :
    (mkEntriesStatic i l).map entryToAtom = l := by
  induction l generalizing i with
  | nil => rfl
  | cons a rest ih => simp only [mkEntriesStatic, List.map_cons, entryToAtom, ih]

/-- When the computed magnetic moments agree with the static per-atom values,
the computed branch succeeds and produces exactly the static entries. -/
theorem mkEntriesComputed_static_of_eq (pre l : List AtomR) :
    mkEntriesComputed ((pre ++ l).map AtomR.magmom) pre.length l
      = .ok (mkEntriesStatic pre.length l) := by
  induction l generalizing pre with
  | nil => rfl
  | cons a rest ih =>
    have hidx : ((pre ++ a :: rest).map AtomR.magmom)[pre.length]? = some a.magmom := by
      rw [List.map_append, List.getElem?_append_right (by simp)]
      simp
    have hrec := ih (pre ++ [a])
    have hms : (pre ++ [a]) ++ rest = pre ++ a :: rest := by simp
    have hlen : (pre ++ [a]).length = pre.length + 1 := by simp
    rw [hms, hlen] at hrec
    unfold mkEntriesComputed
    rw [hidx, hrec]
    rfl

/-- Any successful run of the computed branch produces entries whose
non-magmom data coincide with the static branch and whose magnetic moments
are read off the computed list at the enumeration index. -/
theorem mkEntriesComputed_spec (magmoms : List ℚ) (l : List AtomR) (i : Nat)
    (entries : List AtomEntry) (h : mkEntriesComputed magmoms i l = .ok entries) :
    entries.map (fun e => { e with magmom := 0 })
        = (mkEntriesStatic i l).map (fun e => { e with magmom := 0 })
      ∧ ∀ j, j < l.length → (entries[j]?).map AtomEntry.magmom = magmoms[i + j]? := by
  induction l generalizing i entries with
  | nil =>
    cases h
    exact ⟨rfl, fun j hj => absurd hj (by simp)⟩
  | cons a rest ih =>
    unfold mkEntriesComputed at h
    cases hm : magmoms[i]? with
    | none => rw [hm] at h; cases h
    | some m =>
      rw [hm] at h
      cases hrec : mkEntriesComputed magmoms (i + 1) rest with
      | error e => rw [hrec] at h; cases h
      | ok es =>
        rw [hrec] at h
        injection h with h
        subst h
        obtain ⟨hstrip, hmag⟩ := ih (i + 1) es hrec
        refine ⟨by simp only [List.map_cons, mkEntriesStatic, hstrip], ?_⟩
        intro j hj
        cases j with
        | zero => simpa using hm.symm
        | succ j0 =>
          have := hmag j0 (by simpa using hj)
          simpa [Nat.add_comm, Nat.add_left_comm] using this

/-- Splitting a successful `make_doc_from_atoms` run into its parts. -/
theorem make_doc_ok_parts {user : Option String} {clock : Nat → Int} {s : AtomsObj}
    {d : Doc} (h : make_doc_from_atoms user clock s = .ok d) :
    _make_atoms_dict s = .ok d.atoms ∧ _make_results_dict s = .ok d.results ∧
      d.calcDict = _make_calculator_dict s ∧ d.user = user ∧
      d.ctime = clock 0 ∧ d.mtime = clock 1 := by
  unfold make_doc_from_atoms at h
  cases ha : _make_atoms_dict s with
  | error e => rw [ha] at h; cases h
  | ok ad =>
    rw [ha] at h
    cases hr : _make_results_dict s with
    | error e => rw [hr] at h; cases h
    | ok rd =>
      rw [hr] at h
      injection h with h
      subst h
      exact ⟨rfl, rfl, rfl, rfl, rfl, rfl⟩

/-- The encoder's `energy` field is exactly the calculator's cached energy. -/
theorem energyField_eq (s : AtomsObj) (c : Calculator) : energyField s c = c.energy := by
  cases hc : c.energy with
  | none =>
    simp [energyField, calculation_required, Calculator.hasCachedResult, hc,
      get_potential_energy]
  | some e =>
    simp [energyField, calculation_required, Calculator.hasCachedResult, hc,
      get_potential_energy]

/-- When no computed magnetic-moment source is attached, or the attached one
agrees with the static per-atom values, the encoded atom entries are exactly
the static ones. -/
theorem mkAtomEntries_static_of_hmag (S : AtomsObj)
    (hmag : get_magnetic_moments S = none
      ∨ get_magnetic_moments S = some (S.atomList.map AtomR.magmom)) :
    mkAtomEntries S = .ok (mkEntriesStatic 0 S.atomList) := by
  unfold mkAtomEntries
  rcases hmag with h | h
  · rw [h]
  · rw [h]
    simpa using mkEntriesComputed_static_of_eq [] S.atomList

/-- Decoding a document whose `atoms` sub-document was produced by the encoder
from `S` (with entries decoding back to `S.atomList`) succeeds and yields
`S`'s atom data with the decoder's calculator attached. -/
theorem decode_encoded (S : AtomsObj) (entries : List AtomEntry) (doc : Doc)
    (hda : doc.atoms = atomsDictWithEntries S entries)
    (hent : entries.map entryToAtom = S.atomList) :
    make_atoms_from_doc doc = .ok (decodedOf S doc.results) := by
  unfold make_atoms_from_doc
  rw [hda]
  simp only [atomsDictWithEntries]
  rw [mapExcept_todict]
  rw [hent]
  rfl

/-- Evaluating `_make_results_dict` on a decoded structure: it is driven
entirely by the `results` the decoder stored in its calculator. -/
theorem results_decodedOf (S : AtomsObj) (rd : ResultsDict) :
    _make_results_dict (decodedOf S rd)
      = match rd.forces with
        | none => .ok { energy := rd.energy }
        | some rawForces =>
          match maxList ((flattenForces
              (constrainedForces S.constraints S.positions rawForces)).map (fun q => |q|)) with
          | none => .error .maxOfEmptySequence
          | some m =>
            .ok { energy := rd.energy, forces := some rawForces, fmax := some m } := by
  obtain ⟨e, f, fm, st⟩ := rd
  cases e <;> cases f <;> rfl

/-- Re-encoding the results of a decoded document reproduces the original
`results` sub-document. -/
theorem results_reencode (S : AtomsObj) (rd : ResultsDict)
    (h : _make_results_dict S = .ok rd) :
    _make_results_dict (decodedOf S rd) = .ok rd := by
  rw [results_decodedOf]
  unfold _make_results_dict at h
  cases hc : S.calculator with
  | none =>
    simp only [hc, Except.ok.injEq] at h
    subst h
    rfl
  | some c =>
    simp only [hc] at h
    cases hf : c.forces with
    | none =>
      simp only [hf, Except.ok.injEq] at h
      subst h
      rfl
    | some rawForces =>
      simp only [hf] at h
      cases hmax : maxList ((flattenForces
          (constrainedForces S.constraints S.positions rawForces)).map (fun q => |q|)) with
      | none =>
        rw [hmax] at h
        exact Except.noConfusion h
      | some m =>
        simp only [hmax, Except.ok.injEq] at h
        subst h
        simp only [hmax]

/-- No calculation is pending for energy exactly when an energy is cached. -/
theorem calculation_required_energy (c : Calculator) :
    calculation_required c ["energy"] = false ↔ c.energy.isSome := by
  obtain ⟨sd, kp, mn, cn, e, f, st, mm⟩ := c
  cases e <;> simp [calculation_required, Calculator.hasCachedResult]

/-- No calculation is pending for forces exactly when forces are cached. -/
theorem calculation_required_forces (c : Calculator) :
    calculation_required c ["forces"] = false ↔ c.forces.isSome := by
  obtain ⟨sd, kp, mn, cn, e, f, st, mm⟩ := c
  cases f <;> simp [calculation_required, Calculator.hasCachedResult]

/-- Reading the energy without constraint projection returns the cache. -/
theorem get_potential_energy_false (s : AtomsObj) (c : Calculator) :
    get_potential_energy s c false = c.energy := by
  unfold get_potential_energy
  cases he : c.energy <;> simp

/-- Reading the forces without constraint projection returns the cache. -/
theorem get_forces_false (s : AtomsObj) (c : Calculator) :
    get_forces s c false = c.forces := by
  unfold get_forces
  cases hf : c.forces <;> simp

/-- An encode run succeeds exactly when its two fallible parts do. -/
theorem make_doc_isOk (user : Option String) (clock : Nat → Int) (s : AtomsObj) :
    isOkE (make_doc_from_atoms user clock s)
      = (isOkE (mkAtomEntries s) && isOkE (_make_results_dict s)) := by
  unfold make_doc_from_atoms _make_atoms_dict
  cases mkAtomEntries s <;> cases _make_results_dict s <;> rfl

/-! ## The claims -/

/-- **C1.** For every structure `S` with no attached computed magnetic-moment
source that differs from the static per-atom values, decoding the document
produced by `make_doc_from_atoms` yields a structure whose atom sequence
equals `S`'s exactly (symbol, position, tag, index, charge, momentum and
magnetic moment — list equality of the positional atom records), and
re-encoding that decoded structure reproduces the same `atoms` sub-document
(entries, cell, pbc, constraints, and the freshly recomputed derived fields)
and the same `results` sub-document, for any user and clock. -/
theorem encode_decode_roundtrip (user : Option String) (clock : Nat → Int)
    (S : AtomsObj) (doc : Doc)
    (hmag : get_magnetic_moments S = none
      ∨ get_magnetic_moments S = some (S.atomList.map AtomR.magmom))
    (henc : make_doc_from_atoms user clock S = .ok doc) :
    ∃ S2, make_atoms_from_doc doc = .ok S2 ∧ S2.atomList = S.atomList ∧
      ∀ user2 clock2, ∃ doc2, make_doc_from_atoms user2 clock2 S2 = .ok doc2 ∧
        doc2.atoms = doc.atoms ∧ doc2.results = doc.results := by
  obtain ⟨ha, hr, -, -, -, -⟩ := make_doc_ok_parts henc
  have hent0 : mkAtomEntries S = .ok (mkEntriesStatic 0 S.atomList) :=
    mkAtomEntries_static_of_hmag S hmag
  have hda : doc.atoms = atomsDictWithEntries S (mkEntriesStatic 0 S.atomList) := by
    unfold _make_atoms_dict at ha
    rw [hent0] at ha
    injection ha with ha
    exact ha.symm
  have hent : (mkEntriesStatic 0 S.atomList).map entryToAtom = S.atomList :=
    mkEntriesStatic_map_entryToAtom S.atomList 0
  refine ⟨decodedOf S doc.results, decode_encoded S _ doc hda hent, rfl, ?_⟩
  intro user2 clock2
  have hA2 : _make_atoms_dict (decodedOf S doc.results) = .ok doc.atoms := by
    unfold _make_atoms_dict
    rw [mkAtomEntries_static_of_hmag (decodedOf S doc.results) (Or.inl rfl)]
    rw [hda]
    rfl
  have hR2 : _make_results_dict (decodedOf S doc.results) = .ok doc.results :=
    results_reencode S doc.results hr
  refine ⟨{ atoms := doc.atoms,
            calcDict := _make_calculator_dict (decodedOf S doc.results),
            results := doc.results, user := user2,
            ctime := clock2 0, mtime := clock2 1 }, ?_, rfl, rfl⟩
  unfold make_doc_from_atoms
  rw [hA2, hR2]

/-- **C1, witness** at the concrete one-atom structure `witnessAtomsC1`. -/
theorem encode_decode_roundtrip_witness :
    make_atoms_from_doc witnessDocC1 = .ok decodedC1
      ∧ decodedC1.atomList = witnessAtomsC1.atomList := by
  obtain ⟨S2, h1, h2, -⟩ := encode_decode_roundtrip (some "ktran") (fun _ => 42)
    witnessAtomsC1 witnessDocC1 (Or.inl rfl) rfl
  have hS : decodedC1 = S2 := by
    unfold decodedC1
    rw [h1]
  rw [hS]
  exact ⟨h1, h2⟩

/-- **C2, counterexample.** Decoding the concrete document `emptyResultsDoc`,
whose `results` sub-document is empty, does NOT return a structure with the
calculator absent: the decoder unconditionally attaches a
`SinglePointCalculator` (with no stored values), refuting the claim that no
calculator is set. -/
theorem decode_empty_results_attaches_calculator :
    (okValue (make_atoms_from_doc emptyResultsDoc)).map
      (fun s => s.calculator.isSome) = some true := rfl

/-- **C2, amended.** Decoding a document whose `results` sub-document is empty
yields a structure whose attached calculator record holds no fabricated
values: energy, forces, stress and magnetic moments are all absent (`none`),
never zero. -/
theorem decode_empty_results_no_fabricated_values (d : Doc) (S2 : AtomsObj)
    (hres : d.results = {}) (hdec : make_atoms_from_doc d = .ok S2) :
    ∃ c, S2.calculator = some c ∧ c.energy = none ∧ c.forces = none ∧
      c.stress = none ∧ c.magmoms = none := by
  unfold make_atoms_from_doc at hdec
  cases hm : mapExcept dict2constraint d.atoms.constraints with
  | error e => rw [hm] at hdec; cases hdec
  | ok cons =>
    rw [hm] at hdec
    injection hdec with hdec
    subst hdec
    exact ⟨_, rfl, by rw [hres], by rw [hres], by rw [hres], rfl⟩

/-- **C2, amended — witness** at `emptyResultsDoc`. -/
theorem decode_empty_results_no_fabricated_values_witness :
    decodedEmpty.calculator.map Calculator.energy = some none
      ∧ decodedEmpty.calculator.map Calculator.forces = some none
      ∧ decodedEmpty.calculator.map Calculator.stress = some none := by
  obtain ⟨c, hc, he, hf, hst, -⟩ :=
    decode_empty_results_no_fabricated_values emptyResultsDoc decodedEmpty rfl rfl
  rw [hc]
  simp [he, hf, hst]

/-- **C3.** For every structure with an attached calculator on which the
results encoding succeeds: `energy` is populated exactly when no calculation
is pending for energy and equals the cached energy read WITHOUT constraint
projection; `forces` is populated exactly when no calculation is pending for
forces and equals the cached forces read WITHOUT constraint projection (no
computation is ever triggered — both reads return only cached values); and
`fmax` is the maximum absolute force component of the forces read WITH
constraints applied. -/
theorem results_dict_spec (s : AtomsObj) (c : Calculator) (rd : ResultsDict)
    (hcalc : s.calculator = some c) (hok : _make_results_dict s = .ok rd) :
    (rd.energy.isSome ↔ calculation_required c ["energy"] = false)
    ∧ rd.energy = get_potential_energy s c false
    ∧ (rd.forces.isSome ↔ calculation_required c ["forces"] = false)
    ∧ rd.forces = get_forces s c false
    ∧ (rd.fmax.isSome ↔ rd.forces.isSome)
    ∧ ∀ F, get_forces s c true = some F →
        rd.fmax = maxList ((flattenForces F).map (fun q => |q|)) := by
  have hgpe := get_potential_energy_false s c
  have hgf := get_forces_false s c
  unfold _make_results_dict at hok
  rw [hcalc] at hok
  cases hf : c.forces with
  | none =>
    simp only [hf, Except.ok.injEq] at hok
    subst hok
    refine ⟨?_, ?_, ?_, ?_, Iff.rfl, ?_⟩
    · show (energyField s c).isSome ↔ _
      rw [energyField_eq, calculation_required_energy]
    · show energyField s c = _
      rw [energyField_eq, hgpe]
    · show Option.isSome none ↔ _
      rw [calculation_required_forces, hf]
    · show (none : Option (List Vec3)) = _
      rw [hgf, hf]
    · intro F hF
      have hgt : get_forces s c true = none := by unfold get_forces; rw [hf]
      rw [hgt] at hF
      cases hF
  | some rawForces =>
    simp only [hf] at hok
    cases hmax : maxList ((flattenForces
        (constrainedForces s.constraints s.positions rawForces)).map (fun q => |q|)) with
    | none =>
      rw [hmax] at hok
      cases hok
    | some m =>
      rw [hmax] at hok
      injection hok with hok
      subst hok
      refine ⟨?_, ?_, ?_, ?_, Iff.rfl, ?_⟩
      · show (energyField s c).isSome ↔ _
        rw [energyField_eq, calculation_required_energy]
      · show energyField s c = _
        rw [energyField_eq, hgpe]
      · show (some rawForces).isSome ↔ _
        rw [calculation_required_forces, hf]
      · show some rawForces = _
        rw [hgf, hf]
      · intro F hF
        have hgt : get_forces s c true
            = some (constrainedForces s.constraints s.positions rawForces) := by
          unfold get_forces
          rw [hf]
          rfl
        rw [hgt] at hF
        injection hF with hF
        subst hF
        exact hmax.symm

/-- **C3, witness** at the carbon-monoxide scenario `sCO` (energy −14.2,
forces of shape 2×3, `fmax = 1`). -/
theorem results_dict_spec_witness :
    rdCO.energy = get_potential_energy sCO calcCO false
      ∧ rdCO.energy = some (-71 / 5)
      ∧ rdCO.forces = some [(0, 0, 1), (0, 0, -1)]
      ∧ rdCO.fmax = some 1 := by
  have h := results_dict_spec sCO calcCO rdCO rfl rfl
  exact ⟨h.2.1, rfl, rfl, rfl⟩

/-- **C4.** For every structure whose encoding succeeds, the `volume` field of
the `atoms` sub-document is present iff the cell determinant is strictly
positive; and whether encoding succeeds at all is independent of the cell, so
a degenerate or left-handed cell merely omits the field and never makes the
encode fail. -/
theorem volume_iff_positive_det (user : Option String) (clock : Nat → Int)
    (s : AtomsObj) (d : Doc) (henc : make_doc_from_atoms user clock s = .ok d) :
    (d.atoms.volume.isSome ↔ 0 < detCell s.cell)
    ∧ ∀ cell2, isOkE (make_doc_from_atoms user clock { s with cell := cell2 })
        = isOkE (make_doc_from_atoms user clock s) := by
  obtain ⟨ha, -, -, -, -, -⟩ := make_doc_ok_parts henc
  constructor
  · unfold _make_atoms_dict at ha
    cases he : mkAtomEntries s with
    | error e => rw [he] at ha; cases ha
    | ok entries =>
      rw [he] at ha
      injection ha with ha
      rw [← ha]
      simp only [atomsDictWithEntries]
      by_cases hdet : 0 < detCell s.cell
      · simp [hdet]
      · simp [hdet]
  · intro cell2
    rw [make_doc_isOk, make_doc_isOk]
    rfl

/-- **C4, witness**: the encoded unit-cell structure has `volume` present, and
replacing its cell by a concrete degenerate (determinant-zero) cell leaves
the success of encoding unchanged. -/
theorem volume_iff_positive_det_witness :
    witnessDocC1.atoms.volume.isSome
      ∧ isOkE (make_doc_from_atoms (some "ktran") (fun _ => 42)
          { witnessAtomsC1 with cell := ((1, 0, 0), (1, 0, 0), (0, 0, 1)) })
        = isOkE (make_doc_from_atoms (some "ktran") (fun _ => 42) witnessAtomsC1) := by
  have h := volume_iff_positive_det (some "ktran") (fun _ => 42)
    witnessAtomsC1 witnessDocC1 rfl
  refine ⟨h.1.mpr ?_, h.2 ((1, 0, 0), (1, 0, 0), (0, 0, 1))⟩
  show (0 : ℚ) < detCell ((1, 0, 0), (0, 1, 0), (0, 0, 1))
  norm_num [detCell, dot3, cross3]

/-- **C5, counterexample.** A zero-atom structure that carries a calculator
with a cached (necessarily empty) forces array makes `make_doc_from_atoms`
fail: the `fmax` computation takes Python's `max` over the empty sequence of
force components.  So encoding does not succeed for *every* zero-atom
structure. -/
theorem encode_zero_atoms_can_fail :
    emptyAtomsWithForces.atomList = []
      ∧ make_doc_from_atoms none (fun _ => 0) emptyAtomsWithForces
          = .error .maxOfEmptySequence := ⟨rfl, rfl⟩

/-- **C5, amended.** For every zero-atom structure whose attached calculator
(if any) has no cached forces, encoding succeeds and the document records
`natoms = 0` and an empty `chemical_symbols` collection. -/
theorem encode_zero_atoms_succeeds (user : Option String) (clock : Nat → Int)
    (s : AtomsObj) (hempty : s.atomList = [])
    (hnf : ∀ c, s.calculator = some c → c.forces = none) :
    ∃ d, make_doc_from_atoms user clock s = .ok d
      ∧ d.atoms.natoms = 0 ∧ d.atoms.chemical_symbols = [] := by
  have hents : ∃ es, mkAtomEntries s = .ok es := by
    unfold mkAtomEntries
    cases hg : get_magnetic_moments s with
    | none => exact ⟨_, rfl⟩
    | some ms =>
      rw [hempty]
      exact ⟨[], rfl⟩
  obtain ⟨es, hes⟩ := hents
  have hres : ∃ rd, _make_results_dict s = .ok rd := by
    unfold _make_results_dict
    cases hc : s.calculator with
    | none => exact ⟨_, rfl⟩
    | some c =>
      simp only [hnf c hc]
      exact ⟨_, rfl⟩
  obtain ⟨rd, hrd⟩ := hres
  refine ⟨{ atoms := atomsDictWithEntries s es, calcDict := _make_calculator_dict s,
            results := rd, user := user, ctime := clock 0, mtime := clock 1 },
          ?_, ?_, ?_⟩
  · unfold make_doc_from_atoms _make_atoms_dict
    rw [hes, hrd]
  · simp [atomsDictWithEntries, hempty]
  · simp [atomsDictWithEntries, hempty]

/-- **C5, amended — witness** at the empty adsorbate placeholder. -/
theorem encode_zero_atoms_succeeds_witness :
    make_doc_from_atoms none (fun _ => 0) emptyAtoms = .ok docEmpty
      ∧ docEmpty.atoms.natoms = 0 ∧ docEmpty.atoms.chemical_symbols = [] := by
  obtain ⟨d, h1, h2, h3⟩ := encode_zero_atoms_succeeds none (fun _ => 0) emptyAtoms rfl
    (fun _c hc => Option.noConfusion hc)
  have hd : docEmpty = d := by
    unfold docEmpty
    rw [h1]
  rw [hd]
  exact ⟨h1, h2, h3⟩

/-- **C6.** The two magnetic-moment paths of `_make_atoms_dict`: when the
computed per-atom magnetic moments cannot be retrieved (no attached source),
the encoder falls back to the static per-atom labels without raising; when
the computed retrieval succeeds, each stored magnetic moment is read from the
computed list at the atom's index; and on both paths every other per-atom
field is encoded identically (the entries agree once magnetic moments are
masked out). -/
theorem magmom_two_paths (s : AtomsObj) :
    (get_magnetic_moments s = none →
       _make_atoms_dict s = .ok (atomsDictWithEntries s (mkEntriesStatic 0 s.atomList)))
    ∧ ∀ ad, _make_atoms_dict s = .ok ad →
        ((∀ ms, get_magnetic_moments s = some ms →
            ∀ j, j < s.atomList.length →
              (ad.atoms[j]?).map AtomEntry.magmom = ms[j]?)
         ∧ ad.atoms.map (fun e => { e with magmom := 0 })
             = (mkEntriesStatic 0 s.atomList).map (fun e => { e with magmom := 0 })) := by
  constructor
  · intro hg
    unfold _make_atoms_dict mkAtomEntries
    rw [hg]
  · intro ad had
    unfold _make_atoms_dict at had
    cases he : mkAtomEntries s with
    | error e => rw [he] at had; cases had
    | ok entries =>
      rw [he] at had
      injection had with had
      subst had
      unfold mkAtomEntries at he
      cases hg : get_magnetic_moments s with
      | none =>
        rw [hg] at he
        injection he with he
        subst he
        constructor
        · intro ms hms
          exact Option.noConfusion hms
        · rfl
      | some ms0 =>
        rw [hg] at he
        simp only at he
        obtain ⟨hstrip, hmagm⟩ := mkEntriesComputed_spec ms0 s.atomList 0 entries he
        constructor
        · intro ms hms
          injection hms with hms
          subst hms
          intro j hj
          have hj2 := hmagm j hj
          simpa [atomsDictWithEntries] using hj2
        · simpa [atomsDictWithEntries] using hstrip

/-- **C6, witness**: the static fallback at `s6static` (no computed source)
and the computed path at `s6computed`, whose stored magnetic moment is the
computed 5 and not the static 3. -/
theorem magmom_two_paths_witness :
    _make_atoms_dict s6static
        = .ok (atomsDictWithEntries s6static (mkEntriesStatic 0 s6static.atomList))
      ∧ (ad6.atoms[0]?).map AtomEntry.magmom = some 5 := by
  refine ⟨(magmom_two_paths s6static).1 rfl, ?_⟩
  have h := ((magmom_two_paths s6computed).2 ad6 rfl).1 [5] rfl 0 (by decide)
  simpa using h

/-- **C7.** Decoding any document containing a constraint entry of
unrecognized kind fails with an unsupported-constraint-kind error propagated
to the caller, and no (partially constructed) structure is returned. -/
theorem decode_unknown_constraint_fails (d : Doc) (cd : ConstraintDict)
    (hmem : cd ∈ d.atoms.constraints) (hbad : cd.isUnknownKind = true) :
    ∃ kindName, make_atoms_from_doc d
      = .error (.unsupportedConstraintKind kindName) := by
  obtain ⟨n, rfl⟩ : ∃ n, cd = .otherDict n := by
    cases cd with
    | otherDict n => exact ⟨n, rfl⟩
    | fixAtomsDict l => exact Bool.noConfusion hbad
    | hookeanDict a b r k => exact Bool.noConfusion hbad
  cases hdec : make_atoms_from_doc d with
  | error e =>
    cases e with
    | unsupportedConstraintKind m => exact ⟨m, rfl⟩
  | ok S2 =>
    exfalso
    unfold make_atoms_from_doc at hdec
    cases hm : mapExcept dict2constraint d.atoms.constraints with
    | error e2 => rw [hm] at hdec; cases hdec
    | ok cons =>
      obtain ⟨y, hy⟩ := mapExcept_ok_mem hm _ hmem
      exact Except.noConfusion hy

/-- **C7, witness** at the concrete document `badConstraintDoc`. -/
theorem decode_unknown_constraint_fails_witness :
    make_atoms_from_doc badConstraintDoc
      = .error (.unsupportedConstraintKind "FixBondLengths") := by
  obtain ⟨n, hn⟩ := decode_unknown_constraint_fails badConstraintDoc
    (.otherDict "FixBondLengths") (by decide) rfl
  have h0 : make_atoms_from_doc badConstraintDoc
      = .error (.unsupportedConstraintKind "FixBondLengths") := rfl
  rw [hn] at h0
  injection h0 with h0
  injection h0 with h0
  rw [hn, h0]

/-- **C8, counterexample.** The encoder reads the UTC clock once for `ctime`
and once more for `mtime`; under a clock that advances between the two
readings the concrete document has `ctime = 0` but `mtime = 1`, refuting the
claim that the two fields are always set to the same value. -/
theorem ctime_mtime_differ_under_ticking_clock :
    make_doc_from_atoms none (fun n => (n : Int)) emptyAtoms = .ok tickingDoc
      ∧ tickingDoc.ctime = 0 ∧ tickingDoc.mtime = 1
      ∧ ¬ tickingDoc.ctime = tickingDoc.mtime := ⟨rfl, rfl, rfl, by decide⟩

/-- **C8, amended.** The produced document's `ctime` and `mtime` are set from
two successive current-UTC-clock readings at encode time; whenever the clock
does not advance between the two readings (the typical case at coarse clock
resolution) the two fields are equal. -/
theorem ctime_mtime_clock_readings (user : Option String) (clock : Nat → Int)
    (s : AtomsObj) (d : Doc) (henc : make_doc_from_atoms user clock s = .ok d) :
    d.ctime = clock 0 ∧ d.mtime = clock 1
      ∧ (clock 0 = clock 1 → d.ctime = d.mtime) := by
  obtain ⟨-, -, -, -, hct, hmt⟩ := make_doc_ok_parts henc
  exact ⟨hct, hmt, fun h => by rw [hct, hmt, h]⟩

/-- **C8, amended — witness** under a steady clock. -/
theorem ctime_mtime_clock_readings_witness :
    steadyDoc.ctime = 7 ∧ steadyDoc.mtime = 7 ∧ steadyDoc.ctime = steadyDoc.mtime := by
  have h := ctime_mtime_clock_readings none (fun _ => (7 : Int)) emptyAtoms steadyDoc rfl
  exact ⟨h.1, h.2.1, h.2.2 rfl⟩

/-- **C9.** (code-bug evidence) The adsorbate catalog's `'OOH'` entry carries
NO constraints — the constrained `ooh` local is discarded — so
`adsorption_parameters` selects the unconstrained 200-ionic-step path instead
of the zero-ionic-step constrained path; moreover even the discarded local
kept only the O–H spring, because the second `set_constraint` call replaced
the first (O–O) one. -/
theorem ooh_catalog_entry_without_springs :
    (_adsorbates.lookup "OOH").map AtomsObj.constraints = some []
      ∧ (adsorption_parameters "OOH").map AdsorptionParams.nsw = some 200
      ∧ ooh_constrained.constraints = [.hookean 1 2 (137 / 100) 5] :=
  ⟨rfl, rfl, rfl⟩

/-- **C10.** On every successful encode, the `results` sub-document never
contains a `stress` value, and contains `fmax` exactly when it contains
`forces` — so its key set is one of `{}`, `{energy}`, `{forces, fmax}`,
`{energy, forces, fmax}` — and therefore decoding any encoded document yields
a calculator with the stress field absent (even though the decoder would
accept one). -/
theorem results_keys_shape (user : Option String) (clock : Nat → Int)
    (s : AtomsObj) (d : Doc) (henc : make_doc_from_atoms user clock s = .ok d) :
    d.results.stress = none
    ∧ (d.results.fmax.isSome ↔ d.results.forces.isSome)
    ∧ ∀ S2, make_atoms_from_doc d = .ok S2 →
        ∀ c, S2.calculator = some c → c.stress = none := by
  obtain ⟨-, hr, -, -, -, -⟩ := make_doc_ok_parts henc
  have hshape : d.results.stress = none
      ∧ (d.results.fmax.isSome ↔ d.results.forces.isSome) := by
    unfold _make_results_dict at hr
    cases hc : s.calculator with
    | none =>
      simp only [hc, Except.ok.injEq] at hr
      rw [← hr]
      exact ⟨rfl, Iff.rfl⟩
    | some c =>
      simp only [hc] at hr
      cases hf : c.forces with
      | none =>
        simp only [hf, Except.ok.injEq] at hr
        rw [← hr]
        exact ⟨rfl, Iff.rfl⟩
      | some rawForces =>
        simp only [hf] at hr
        cases hmax : maxList ((flattenForces
            (constrainedForces s.constraints s.positions rawForces)).map (fun q => |q|)) with
        | none =>
          rw [hmax] at hr
          cases hr
        | some m =>
          rw [hmax] at hr
          injection hr with hr
          rw [← hr]
          exact ⟨rfl, Iff.rfl⟩
  refine ⟨hshape.1, hshape.2, ?_⟩
  intro S2 hdec c hc2
  unfold make_atoms_from_doc at hdec
  cases hm : mapExcept dict2constraint d.atoms.constraints with
  | error e => rw [hm] at hdec; cases hdec
  | ok cons =>
    rw [hm] at hdec
    injection hdec with hdec
    subst hdec
    injection hc2 with hc2
    subst hc2
    exact hshape.1

/-- **C10, witness** at `sCO` (whose encode stores energy, forces and fmax). -/
theorem results_keys_shape_witness :
    docCO.results.stress = none ∧ docCO.results.fmax.isSome := by
  have h := results_keys_shape none (fun _ => 0) sCO docCO rfl
  exact ⟨h.1, h.2.1.mpr rfl⟩

end GASpy
